import Mathlib

set_option autoImplicit false

namespace LibcameraRs

/-! Shallow embedding of the libcamera-rs C API shim (`libcamera-sys/c_api`).

The wrapper functions are translated from the `.cpp` sources.  The behaviour of
the wrapped `libcamera::ControlValue` / `libcamera::ControlList` objects and of
the camera session state machine is not part of this repository (it lives in
the external libcamera library behind the shim); where a claim depends on it,
the corresponding definition is modelled from the specification and marked
`Modelled from the spec:` in its doc comment. -/

/-- The `libcamera_control_type` enumeration from `c_api/controls.h`
(`LIBCAMERA_CONTROL_TYPE_NONE` through `LIBCAMERA_CONTROL_TYPE_POINT`). -/
inductive ControlType where
  | none
  | bool
  | byte
  | uint16
  | uint32
  | int32
  | int64
  | float
  | string
  | rectangle
  | size
  | point
  deriving DecidableEq, Repr

/-- Modelled from the spec: the byte width of one element of each primitive
value type (spec §3 Value, §6 "raw bytes of length count*sizeOf(type)").
The widths are those of the C++ payload types held by a
`libcamera::ControlValue`: `None` occupies no storage, `Bool`/`Byte`/the
characters of a `String` one byte each, and the remaining types the size of the
corresponding fixed-width scalar or geometry struct. -/
def ctrlTypeSize : ControlType → Nat
  | ControlType.none => 0
  | ControlType.bool => 1
  | ControlType.byte => 1
  | ControlType.uint16 => 2
  | ControlType.uint32 => 4
  | ControlType.int32 => 4
  | ControlType.int64 => 8
  | ControlType.float => 4
  | ControlType.string => 1
  | ControlType.rectangle => 16
  | ControlType.size => 8
  | ControlType.point => 8

/-- Modelled from the spec: the state of a `libcamera::ControlValue`
(spec §3 Value): a type tag, an array flag, an element count and the raw
backing bytes.  Bytes are modelled as a list of naturals. -/
structure ControlValue where
  type : ControlType
  isArray : Bool
  numElements : Nat
  bytes : List Nat
  deriving DecidableEq, Repr

/-- Modelled from the spec: a default-constructed `libcamera::ControlValue`
(spec §4.1 "construct empty (`type=None`)"): type tag `None`, not an array,
zero elements, empty storage. -/
def ControlValue.init : ControlValue :=
  { type := ControlType.none, isArray := false, numElements := 0, bytes := [] }

/-- Modelled from the spec: `libcamera::ControlValue::reserve(type, isArray,
numElements)`, which per spec §4.1 "reserves exactly
`elementCount*sizeOf(type)` bytes": it sets the type tag, the array flag and
the element count and resizes the backing storage to
`numElements * ctrlTypeSize type` bytes.  Fresh storage is modelled as zeroes;
the only caller in `controls.cpp` immediately overwrites all of it. -/
def ControlValue.reserve (_val : ControlValue) (t : ControlType) (arr : Bool)
    (n : Nat) : ControlValue :=
  { type := t, isArray := arr, numElements := n,
    bytes := List.replicate (n * ctrlTypeSize t) 0 }

/-- Translated from `libcamera_control_value_set` in `c_api/controls.cpp`
(lines 79–83): `val->reserve(type, num_elements != 1, num_elements)` followed by
`memcpy(storage.data(), data, storage.size())` where `storage = val->data()`.
The `memcpy` reads exactly `storage.size()` bytes from the caller's buffer and
the function performs no size check and returns `void`; when the buffer is
shorter than `storage.size()` the read runs past the end of the buffer, which
the model makes explicit by returning `Option.none` (undefined behaviour).
A successful call returns the updated value. -/
def libcamera_control_value_set (val : ControlValue) (t : ControlType)
    (data : List Nat) (num_elements : Nat) : Option ControlValue :=
  let v1 := val.reserve t (num_elements != 1) num_elements
  let sz := v1.bytes.length
  if sz ≤ data.length then Option.some { v1 with bytes := data.take sz }
  else Option.none

/-- Translated from `libcamera_control_value_type` in `c_api/controls.cpp`:
returns `val->type()`. -/
def libcamera_control_value_type (val : ControlValue) : ControlType :=
  val.type

/-- Translated from `libcamera_control_value_is_none` in `c_api/controls.cpp`:
returns `val->isNone()`; modelled from the spec as the type tag being `None`
(spec §3 "type=None ⇔ empty/unset"). -/
def libcamera_control_value_is_none (val : ControlValue) : Bool :=
  val.type == ControlType.none

/-- Translated from `libcamera_control_value_is_array` in `c_api/controls.cpp`:
returns `val->isArray()`, the stored array flag. -/
def libcamera_control_value_is_array (val : ControlValue) : Bool :=
  val.isArray

/-- Translated from `libcamera_control_value_num_elements` in
`c_api/controls.cpp`: returns `val->numElements()`, the stored count. -/
def libcamera_control_value_num_elements (val : ControlValue) : Nat :=
  val.numElements

/-- Translated from `libcamera_control_value_get` in `c_api/controls.cpp`:
returns `val->data().data()`, the raw backing bytes. -/
def libcamera_control_value_get (val : ControlValue) : List Nat :=
  val.bytes

/-- The error taxonomy of spec §7 (only the kinds used here). -/
inductive CError where
  | invalidArgument
  | invalidConfiguration
  | busy
  | notFound
  deriving DecidableEq, Repr

/-- Modelled from the spec: `set(type, rawBytes, elementCount)` exactly as
§4.1 words it — "caller must supply a buffer of exactly that many bytes;
mismatched size is a caller error (… the implementation must check and fail
with `InvalidArgument` rather than read out of bounds)".  This definition
follows the words of the spec and exists only to be compared against the
implementation `libcamera_control_value_set`. -/
def controlValueSet_spec (t : ControlType) (data : List Nat) (n : Nat) :
    Except CError ControlValue :=
  if data.length = n * ctrlTypeSize t then
    Except.ok { type := t, isArray := n != 1, numElements := n, bytes := data }
  else
    Except.error CError.invalidArgument

/-- Control values reachable through the C API: default construction
(`libcamera_control_value_create`) followed by any sequence of
`libcamera_control_value_set` calls that stay within the caller's buffer. -/
inductive ControlValue.Reachable : ControlValue → Prop where
  | init : ControlValue.Reachable ControlValue.init
  | step {v w : ControlValue} {t : ControlType} {data : List Nat} {n : Nat} :
      ControlValue.Reachable v →
      libcamera_control_value_set v t data n = Option.some w →
      ControlValue.Reachable w

/-- Modelled from the spec: a `libcamera::ControlList` (spec §3 Value Map) — a
mapping from integer identifier to `ControlValue` with no duplicate keys,
modelled as an association list. -/
abbrev ControlList := List (Nat × ControlValue)

/-- Modelled from the spec: `ControlList::contains(id)` — whether the map holds
an entry for `id`. -/
def ControlList.containsId (list : ControlList) (id : Nat) : Bool :=
  list.any (fun e => e.1 == id)

/-- Modelled from the spec: `ControlList::get(id)` — the value stored for `id`,
if any (spec §4.1 "`get(id)` returns a reference to the stored Value or
`NotFound`"). -/
def ControlList.getStored : ControlList → Nat → Option ControlValue
  | [], _ => Option.none
  | e :: es, i =>
      if e.1 = i then Option.some e.2 else ControlList.getStored es i

/-- Modelled from the spec: `ControlList::set(id, value)` — insert or
overwrite, never duplicating a key and never validating the identifier or the
value against a schema (spec §4.1). -/
def ControlList.setStored : ControlList → Nat → ControlValue → ControlList
  | [], i, v => [(i, v)]
  | e :: es, i, v =>
      if e.1 = i then (i, v) :: es else e :: ControlList.setStored es i v

/-- Translated from `libcamera_control_list_get` (src/unnamed/part_007,
lines 48–54): returns a pointer to the stored value when `list->contains(id)`,
`nullptr` otherwise. -/
def libcamera_control_list_get (list : ControlList) (id : Nat) :
    Option ControlValue :=
  if ControlList.containsId list id then ControlList.getStored list id
  else Option.none

/-- Translated from `libcamera_control_list_set` (src/unnamed/part_007,
lines 56–60): forwards to `list->set(id, *val)` unconditionally; the comment in
the source notes that the C++ API "does not provide any feedback", so the
wrapper returns no status. -/
def libcamera_control_list_set (list : ControlList) (id : Nat)
    (val : ControlValue) : ControlList :=
  ControlList.setStored list id val

/-- The payload of a `libcamera_pixel_format_t` (`c_api/pixel_format.h`): a DRM
fourcc code and a modifier. -/
structure PixelFormat where
  fourcc : Nat
  modifier : Nat
  deriving DecidableEq, Repr

/-- A width/height pair (`c_api/geometry.h`). -/
structure SizeDim where
  width : Nat
  height : Nat
  deriving DecidableEq, Repr

/-- One `libcamera::StreamConfiguration` (spec §3 Stream Configuration), with
the fields exposed by the accessors in `c_api/stream.h`: negotiated pixel
format, dimensions, line stride, per-frame byte size and buffer count. -/
structure StreamConfiguration where
  pixel_format : PixelFormat
  size : SizeDim
  stride : Nat
  frame_size : Nat
  buffer_count : Nat
  deriving DecidableEq, Repr

/-- A camera handle as stored in the manager's camera list
(`std::shared_ptr<libcamera::Camera>` in `c_api/camera.h`); only its stable
string identifier matters here (spec §2 Camera Manager). -/
structure CameraHandle where
  id : String
  deriving DecidableEq, Repr

/-- Translated from `libcamera_camera_configuration_at` in `c_api/camera.cpp`
(lines 13–19): `&config->at(index)` when `config->size() > index`, `nullptr`
otherwise. -/
def libcamera_camera_configuration_at (config : List StreamConfiguration)
    (index : Nat) : Option StreamConfiguration :=
  if h : config.length > index then Option.some (config.get ⟨index, h⟩)
  else Option.none

/-- Translated from `libcamera_camera_list_get` (src/unnamed/part_000,
lines 44–49): `nullptr` when `list->size() <= index`, otherwise a copy of the
shared camera handle `list->at(index)`. -/
def libcamera_camera_list_get (list : List CameraHandle) (index : Nat) :
    Option CameraHandle :=
  if h : list.length ≤ index then Option.none
  else Option.some (list.get ⟨index, Nat.lt_of_not_le h⟩)

/-- Translated from `libcamera_pixel_formats_get` in `c_api/pixel_format.cpp`
(lines 52–58): `nullptr` when `formats->size() <= index`, otherwise
`&(*formats)[index]`. -/
def libcamera_pixel_formats_get (formats : List PixelFormat) (index : Nat) :
    Option PixelFormat :=
  if h : formats.length ≤ index then Option.none
  else Option.some (formats.get ⟨index, Nat.lt_of_not_le h⟩)

/-- The `libcamera_control_list_iter` struct (`c_api/controls.h`): a pointer to
the list plus a current iterator.  Modelled as the entry list and a cursor
position; `pos = entries.length` is the `end()` position of the map. -/
structure ControlListIter where
  entries : List (Nat × ControlValue)
  pos : Nat
  deriving DecidableEq, Repr

/-- Translated from `libcamera_control_list_iter_end` (src/unnamed/part_007,
lines 71–73): `iter->it == iter->list->end()`. -/
def libcamera_control_list_iter_end (iter : ControlListIter) : Bool :=
  iter.pos == iter.entries.length

/-- Translated from `libcamera_control_list_iter_next` (src/unnamed/part_007,
lines 75–79): increments the iterator only when
`iter->it != iter->list->end()`. -/
def libcamera_control_list_iter_next (iter : ControlListIter) :
    ControlListIter :=
  if iter.pos != iter.entries.length then { iter with pos := iter.pos + 1 }
  else iter

/-- The `libcamera_request_buffer_map_iter` struct (`c_api/request.h`): a
pointer to the `Request::BufferMap` plus a current iterator.  Stream and
buffer pointers are modelled as opaque numeric handles. -/
structure RequestBufferMapIter where
  entries : List (Nat × Nat)
  pos : Nat
  deriving DecidableEq, Repr

/-- Translated from `libcamera_request_buffer_map_iter_end` in
`c_api/request.cpp` (lines 62–64): `iter->it == iter->buffer_map->end()`. -/
def libcamera_request_buffer_map_iter_end (iter : RequestBufferMapIter) :
    Bool :=
  iter.pos == iter.entries.length

/-- Translated from `libcamera_request_buffer_map_iter_next` in
`c_api/request.cpp` (lines 66–70): increments the iterator only when
`iter->it != iter->buffer_map->end()`. -/
def libcamera_request_buffer_map_iter_next (iter : RequestBufferMapIter) :
    RequestBufferMapIter :=
  if iter.pos != iter.entries.length then { iter with pos := iter.pos + 1 }
  else iter

/-- The `libcamera_camera_configuration_status` enumeration from
`c_api/camera.h`: the three-way outcome of `validate()` (spec §3). -/
inductive ConfigStatus where
  | valid
  | adjusted
  | invalid
  deriving DecidableEq, Repr

/-- The `libcamera_stream_role` enumeration from `c_api/stream.h`. -/
inductive StreamRole where
  | raw
  | stillCapture
  | videoRecording
  | viewFinder
  deriving DecidableEq, Repr

/-- Modelled from the spec: a `libcamera::CameraConfiguration` as `configure`
sees it (spec §3, §4.3): its stream configurations, whether `validate()` has
been run on it, and the verdict `validate()` reports.  The pipeline-specific
adjustment policy is out of scope; per §4.3 only the three-way outcome
contract is modelled, as data carried by the configuration. -/
structure CameraConfiguration where
  streams : List StreamConfiguration
  validated : Bool
  status : ConfigStatus
  deriving DecidableEq, Repr

/-- Translated from `libcamera_camera_configuration_validate` in
`c_api/camera.cpp` (lines 21–23), which returns `config->validate()`; modelled
from the spec as reporting the pipeline's verdict carried by the
configuration. -/
def libcamera_camera_configuration_validate (config : CameraConfiguration) :
    ConfigStatus :=
  config.status

/-- Modelled from the spec: camera lifecycle states (spec §3 Camera:
`Available → Acquired → Configured → Running`). -/
inductive CamState where
  | available
  | acquired
  | configured
  | running
  deriving DecidableEq, Repr

/-- Modelled from the spec: the session state of one camera (spec §3 Camera,
§4.3, §4.4): its lifecycle state, the currently applied configuration (if
any), and the pipeline's answers to `generateConfiguration` — which role
combinations it supports and the best-effort default configuration it hands
back for a supported combination. -/
structure CameraModel where
  state : CamState
  applied : Option (List StreamConfiguration)
  supports : List StreamRole → Bool
  defaultConfig : List StreamRole → CameraConfiguration

/-- Translated from `libcamera_camera_generate_configuration` in
`c_api/camera.cpp` (lines 69–72), which forwards the ordered role list to
`Camera::generateConfiguration` and releases its result (possibly null) to the
caller; the pipeline behaviour is modelled from the spec (§4.3): a best-effort
default configuration, or nothing when the role combination is unsupported. -/
def libcamera_camera_generate_configuration (cam : CameraModel)
    (roles : List StreamRole) : Option CameraConfiguration :=
  if cam.supports roles then Option.some (cam.defaultConfig roles)
  else Option.none

/-- The outcome of a `configure` call: the error reported through the C `int`
return value (if any) together with the camera state after the call. -/
structure ConfigureResult where
  error : Option CError
  camera : CameraModel

/-- Translated from `libcamera_camera_configure` in `c_api/camera.cpp`
(lines 74–76), which forwards to `Camera::configure`; the camera-side
behaviour is modelled from the spec (§4.4): the call "fails with
`InvalidConfiguration` if the supplied Configuration was never validated or
was left `Invalid`", re-configuring while `Running` is forbidden, and
otherwise the configuration is applied and the camera becomes `Configured`.
A failing call leaves the camera unchanged. -/
def libcamera_camera_configure (cam : CameraModel)
    (config : CameraConfiguration) : ConfigureResult :=
  if config.validated = false ∨ config.status = ConfigStatus.invalid then
    { error := Option.some CError.invalidConfiguration, camera := cam }
  else if cam.state = CamState.running then
    { error := Option.some CError.busy, camera := cam }
  else
    { error := Option.none,
      camera := { cam with state := CamState.configured,
                           applied := Option.some config.streams } }

/-- The `libcamera_request_status` enumeration from `c_api/request.h`
(`PENDING`, `COMPLETE`, `CANCELLED`). -/
inductive RequestStatus where
  | pending
  | complete
  | cancelled
  deriving DecidableEq, Repr

/-- One invocation of the registered completion callback
(`libcamera_camera_request_completed_connect` in `c_api/camera.cpp`,
lines 38–46): the request it was delivered for, the frame sequence number and
the status the request carries. -/
structure CallbackEvent where
  reqId : Nat
  seq : Nat
  status : RequestStatus
  deriving DecidableEq, Repr

/-- Modelled from the spec: the observable state of a running capture session
(spec §4.4 Completion, §5, §7): the FIFO of in-flight requests, the next frame
sequence number, and the ordered log of completion-callback invocations. -/
structure PipelineState where
  inFlight : List Nat
  nextSeq : Nat
  log : List CallbackEvent
  deriving DecidableEq, Repr

/-- Modelled from the spec: the operations of one capture run —
`queueRequest` (spec §4.4), asynchronous completion of the oldest in-flight
request by the pipeline-owned worker context (spec §5), and `stop`. -/
inductive PipeOp where
  | queue (r : Nat)
  | completeOne
  | stop
  deriving DecidableEq, Repr

/-- Modelled from the spec: the pipeline completes the oldest in-flight
request, assigns it the next frame sequence number and fires the callback with
status `Complete` (spec §4.4: callbacks fire "in increasing `sequence` order
as frames exit the pipeline"). -/
def pipelineCompleteOne (st : PipelineState) : PipelineState :=
  match st.inFlight with
  | [] => st
  | r :: rest =>
      { inFlight := rest, nextSeq := st.nextSeq + 1,
        log := st.log ++ [{ reqId := r, seq := st.nextSeq,
                            status := RequestStatus.complete }] }

/-- Cancellation callbacks for the outstanding requests, with consecutive
sequence numbers starting at `s`. -/
def cancelEvents : Nat → List Nat → List CallbackEvent
  | _, [] => []
  | s, r :: rs =>
      { reqId := r, seq := s, status := RequestStatus.cancelled }
        :: cancelEvents (s + 1) rs

/-- Translated from `libcamera_camera_stop` in `c_api/camera.cpp`
(lines 90–92), which forwards to `Camera::stop`; the camera-side behaviour is
modelled from the spec (§7: "On `stop()`, any in-flight requests are
force-completed with status `Cancelled`, never silently dropped"; §4.4):
every outstanding request is completed with `Cancelled` and its callback fired
before `stop` returns. -/
def pipelineStop (st : PipelineState) : PipelineState :=
  { inFlight := [], nextSeq := st.nextSeq + st.inFlight.length,
    log := st.log ++ cancelEvents st.nextSeq st.inFlight }

/-- One step of a capture run. -/
def pipelineStep (st : PipelineState) : PipeOp → PipelineState
  | PipeOp.queue r => { st with inFlight := st.inFlight ++ [r] }
  | PipeOp.completeOne => pipelineCompleteOne st
  | PipeOp.stop => pipelineStop st

/-- A capture run from the freshly started state. -/
def pipelineRun (ops : List PipeOp) : PipelineState :=
  ops.foldl pipelineStep { inFlight := [], nextSeq := 0, log := [] }

/-- The requests queued during a run, in order. -/
def queuedIds : List PipeOp → List Nat
  | [] => []
  | PipeOp.queue r :: rest => r :: queuedIds rest
  | PipeOp.completeOne :: rest => queuedIds rest
  | PipeOp.stop :: rest => queuedIds rest

/-- Closed-form characterisation of `libcamera_control_value_set`, shared by
several claim proofs below. -/
theorem controlValueSet_eq (val : ControlValue) (t : ControlType)
    (data : List Nat) (n : Nat) :
    libcamera_control_value_set val t data n
      = if n * ctrlTypeSize t ≤ data.length
        then Option.some { type := t, isArray := n != 1, numElements := n,
                           bytes := data.take (n * ctrlTypeSize t) }
        else Option.none := by
  simp [libcamera_control_value_set, ControlValue.reserve]

/-- A successful `set` call determines the resulting value and implies that the
caller's buffer held at least the reserved number of bytes. -/
theorem controlValueSet_some {val w : ControlValue} {t : ControlType}
    {data : List Nat} {n : Nat}
    (hset : libcamera_control_value_set val t data n = Option.some w) :
    w = { type := t, isArray := n != 1, numElements := n,
          bytes := data.take (n * ctrlTypeSize t) }
    ∧ n * ctrlTypeSize t ≤ data.length := by
  rw [controlValueSet_eq] at hset
  by_cases hc : n * ctrlTypeSize t ≤ data.length
  · rw [if_pos hc] at hset
    exact ⟨(Option.some.inj hset).symm, hc⟩
  · rw [if_neg hc] at hset
    exact absurd hset (by simp)

/-- Claim C1, as amended: `libcamera_control_value_set` performs no size check
and has no error return.  With a buffer of exactly `n * ctrlTypeSize t` bytes
it reserves exactly that many bytes and copies the buffer into them; with a
larger buffer it silently copies the prefix; with a smaller buffer the
`memcpy` reads out of bounds (modelled as `Option.none`).  In no case is an
`InvalidArgument` error produced. -/
theorem c1_set_unchecked (val : ControlValue) (t : ControlType)
    (data : List Nat) (n : Nat) :
    (data.length = n * ctrlTypeSize t →
      libcamera_control_value_set val t data n
        = Option.some { type := t, isArray := n != 1, numElements := n,
                        bytes := data })
    ∧ (n * ctrlTypeSize t ≤ data.length →
      libcamera_control_value_set val t data n
        = Option.some { type := t, isArray := n != 1, numElements := n,
                        bytes := data.take (n * ctrlTypeSize t) })
    ∧ (data.length < n * ctrlTypeSize t →
      libcamera_control_value_set val t data n = Option.none) := by
  refine ⟨?_, ?_, ?_⟩
  · intro h
    rw [controlValueSet_eq, if_pos (le_of_eq h.symm), ← h, List.take_length]
  · intro h
    rw [controlValueSet_eq, if_pos h]
  · intro h
    rw [controlValueSet_eq, if_neg (Nat.not_le.mpr h)]

/-- Witness for C1 (amended): a one-element `Byte` value set from an exactly
sized one-byte buffer succeeds and copies the buffer; the same call with an
empty buffer reads out of bounds. -/
theorem c1_set_unchecked_witness :
    libcamera_control_value_set ControlValue.init ControlType.byte [7] 1
      = Option.some { type := ControlType.byte, isArray := false,
                      numElements := 1, bytes := [7] }
    ∧ libcamera_control_value_set ControlValue.init ControlType.byte [] 1
      = Option.none :=
  ⟨(c1_set_unchecked ControlValue.init ControlType.byte [7] 1).1 (by decide),
   (c1_set_unchecked ControlValue.init ControlType.byte [] 1).2.2 (by decide)⟩

/-- Counterexample to claim C1 as stated: a `set` call whose buffer does not
hold exactly `elementCount*sizeOf(type)` bytes (two bytes supplied for one
`Byte` element) is not detected — the call completes normally, silently
copying the first byte, while the spec-following `controlValueSet_spec`
rejects the same call with `InvalidArgument`.  The C function returns `void`,
so no error can ever be reported. -/
theorem c1_set_mismatch_counterexample :
    libcamera_control_value_set ControlValue.init ControlType.byte [7, 8] 1
      = Option.some { type := ControlType.byte, isArray := false,
                      numElements := 1, bytes := [7] }
    ∧ controlValueSet_spec ControlType.byte [7, 8] 1
      = Except.error CError.invalidArgument := ⟨rfl, rfl⟩

/-- Claim C3: round-trip — setting a value of type `t` with `n` elements from a
buffer of exactly `n * ctrlTypeSize t` bytes succeeds and reading it back
through `type()`, `numElements()` and `data()` yields the same type, the same
count and byte-identical content. -/
theorem c3_value_round_trip (val : ControlValue) (t : ControlType)
    (data : List Nat) (n : Nat) (h : data.length = n * ctrlTypeSize t) :
    ∃ w, libcamera_control_value_set val t data n = Option.some w
      ∧ libcamera_control_value_type w = t
      ∧ libcamera_control_value_num_elements w = n
      ∧ libcamera_control_value_get w = data := by
  refine ⟨{ type := t, isArray := n != 1, numElements := n, bytes := data },
    ?_, rfl, rfl, rfl⟩
  rw [controlValueSet_eq, if_pos (le_of_eq h.symm), ← h, List.take_length]

/-- Witness for C3: a two-element `UInt16` array from a four-byte buffer. -/
theorem c3_value_round_trip_witness :
    ∃ w, libcamera_control_value_set ControlValue.init ControlType.uint16
          [1, 2, 3, 4] 2 = Option.some w
      ∧ libcamera_control_value_type w = ControlType.uint16
      ∧ libcamera_control_value_num_elements w = 2
      ∧ libcamera_control_value_get w = [1, 2, 3, 4] :=
  c3_value_round_trip ControlValue.init ControlType.uint16 [1, 2, 3, 4] 2
    (by decide)

/-- Claim C4: in every reachable state of a control value — after construction
and after any sequence of successful `set` calls — the backing storage holds
exactly `numElements * ctrlTypeSize type` bytes; the type tag is `None`
exactly when `isNone()` reports the value unset, and a `None` value owns no
bytes. -/
theorem c4_value_invariant (v : ControlValue) (h : ControlValue.Reachable v) :
    v.bytes.length = v.numElements * ctrlTypeSize v.type
    ∧ (libcamera_control_value_is_none v = true ↔ v.type = ControlType.none)
    ∧ (v.type = ControlType.none → v.bytes = []) := by
  induction h with
  | init =>
      refine ⟨rfl, ?_, fun _ => rfl⟩
      simp [libcamera_control_value_is_none, ControlValue.init]
  | step hv hset ih =>
      obtain ⟨rfl, hc⟩ := controlValueSet_some hset
      refine ⟨?_, ?_, ?_⟩
      · simp [List.length_take, Nat.min_eq_left hc]
      · simp [libcamera_control_value_is_none]
      · intro ht
        simp only at ht
        subst ht
        simp [ctrlTypeSize]

/-- Witness for C4: the freshly constructed value satisfies the invariant. -/
theorem c4_value_invariant_witness :
    ControlValue.init.bytes.length
      = ControlValue.init.numElements * ctrlTypeSize ControlValue.init.type :=
  (c4_value_invariant ControlValue.init ControlValue.Reachable.init).1

/-- Claim C7: for every reachable value of a scalar-representable (non-`None`)
type, `isArray()` is `numElements() != 1`; and immediately after a successful
`set` with element count `n`, `isArray()` is `n != 1` and `numElements()` is
`n`. -/
theorem c7_is_array :
    (∀ v : ControlValue, ControlValue.Reachable v →
        v.type ≠ ControlType.none →
        libcamera_control_value_is_array v
          = (libcamera_control_value_num_elements v != 1))
    ∧ (∀ (v w : ControlValue) (t : ControlType) (data : List Nat) (n : Nat),
        libcamera_control_value_set v t data n = Option.some w →
        libcamera_control_value_is_array w = (n != 1)
        ∧ libcamera_control_value_num_elements w = n) := by
  constructor
  · intro v hv hne
    induction hv with
    | init => exact absurd rfl hne
    | step hv hset ih =>
        obtain ⟨rfl, -⟩ := controlValueSet_some hset
        rfl
  · intro v w t data n hset
    obtain ⟨rfl, -⟩ := controlValueSet_some hset
    exact ⟨rfl, rfl⟩

/-- Witness for C7: a two-element `Byte` array obtained through `set`. -/
theorem c7_is_array_witness :
    libcamera_control_value_is_array
        { type := ControlType.byte, isArray := true, numElements := 2,
          bytes := [5, 6] }
      = (libcamera_control_value_num_elements
          { type := ControlType.byte, isArray := true, numElements := 2,
            bytes := [5, 6] } != 1) :=
  c7_is_array.1
    { type := ControlType.byte, isArray := true, numElements := 2,
      bytes := [5, 6] }
    (@ControlValue.Reachable.step ControlValue.init
      { type := ControlType.byte, isArray := true, numElements := 2,
        bytes := [5, 6] }
      ControlType.byte [5, 6] 2 ControlValue.Reachable.init (by decide))
    (by decide)

/-- `ControlList::contains` agrees with `getStored` producing a value. -/
theorem containsId_eq_isSome (l : ControlList) (i : Nat) :
    ControlList.containsId l i = (ControlList.getStored l i).isSome := by
  induction l with
  | nil => rfl
  | cons e es ih =>
      simp only [ControlList.containsId, List.any_cons] at ih ⊢
      by_cases he : e.1 = i
      · simp [ControlList.getStored, he]
      · have hbe : (e.1 == i) = false := by simpa using he
        simp [ControlList.getStored, he, hbe, ih]

/-- After `setStored l i v`, looking up `i` yields `v`. -/
theorem getStored_setStored_self (l : ControlList) (i : Nat)
    (v : ControlValue) :
    ControlList.getStored (ControlList.setStored l i v) i = Option.some v := by
  induction l with
  | nil => simp [ControlList.setStored, ControlList.getStored]
  | cons e es ih =>
      by_cases he : e.1 = i
      · simp [ControlList.setStored, he, ControlList.getStored]
      · simp [ControlList.setStored, he, ControlList.getStored, ih]

/-- `setStored l i v` leaves every other key unchanged. -/
theorem getStored_setStored_ne (l : ControlList) (i j : Nat)
    (v : ControlValue) (hj : j ≠ i) :
    ControlList.getStored (ControlList.setStored l i v) j
      = ControlList.getStored l j := by
  induction l with
  | nil => simp [ControlList.setStored, ControlList.getStored, Ne.symm hj]
  | cons e es ih =>
      by_cases he : e.1 = i
      · subst he
        simp [ControlList.setStored, ControlList.getStored, Ne.symm hj]
      · simp [ControlList.setStored, ControlList.getStored, he, ih]

/-- Claim C6: `get(id)` returns the stored value when the map contains an
entry for `id` and null (`NotFound`) when it does not; `set(id, value)`
succeeds unconditionally for every identifier and every value — no schema
validation — inserting or overwriting the entry and leaving other keys
untouched. -/
theorem c6_list_get_set (l : ControlList) (i : Nat) (v : ControlValue) :
    (∀ w, ControlList.getStored l i = Option.some w →
        libcamera_control_list_get l i = Option.some w)
    ∧ (ControlList.getStored l i = Option.none →
        libcamera_control_list_get l i = Option.none)
    ∧ libcamera_control_list_get (libcamera_control_list_set l i v) i
        = Option.some v
    ∧ (∀ j, j ≠ i →
        ControlList.getStored (libcamera_control_list_set l i v) j
          = ControlList.getStored l j) := by
  refine ⟨?_, ?_, ?_, ?_⟩
  · intro w hw
    unfold libcamera_control_list_get
    rw [containsId_eq_isSome, hw]
    rfl
  · intro hw
    unfold libcamera_control_list_get
    rw [containsId_eq_isSome, hw]
    rfl
  · unfold libcamera_control_list_get libcamera_control_list_set
    rw [containsId_eq_isSome, getStored_setStored_self]
    rfl
  · intro j hj
    exact getStored_setStored_ne l i j v hj

/-- Witness for C6: on a one-entry map, a present key is returned, an absent
key yields null, and a fresh `set` is read back. -/
theorem c6_list_get_set_witness :
    libcamera_control_list_get [(5, ControlValue.init)] 5
      = Option.some ControlValue.init
    ∧ libcamera_control_list_get [(5, ControlValue.init)] 7 = Option.none
    ∧ libcamera_control_list_get
        (libcamera_control_list_set [(5, ControlValue.init)] 9
          ControlValue.init) 9
      = Option.some ControlValue.init :=
  ⟨(c6_list_get_set [(5, ControlValue.init)] 5 ControlValue.init).1
      ControlValue.init (by decide),
   (c6_list_get_set [(5, ControlValue.init)] 7 ControlValue.init).2.1
      (by decide),
   (c6_list_get_set [(5, ControlValue.init)] 9 ControlValue.init).2.2.1⟩

/-- Claim C9: indexed access into the camera list, the configuration's
stream-configuration sequence and the pixel-format list is total — every index
at or past the container's size yields null, and every in-range index yields
the element at that index. -/
theorem c9_indexed_access_total :
    (∀ (config : List StreamConfiguration) (index : Nat),
        (config.length ≤ index →
            libcamera_camera_configuration_at config index = Option.none)
        ∧ ∀ h : index < config.length,
            libcamera_camera_configuration_at config index
              = Option.some (config.get ⟨index, h⟩))
    ∧ (∀ (list : List CameraHandle) (index : Nat),
        (list.length ≤ index →
            libcamera_camera_list_get list index = Option.none)
        ∧ ∀ h : index < list.length,
            libcamera_camera_list_get list index
              = Option.some (list.get ⟨index, h⟩))
    ∧ (∀ (formats : List PixelFormat) (index : Nat),
        (formats.length ≤ index →
            libcamera_pixel_formats_get formats index = Option.none)
        ∧ ∀ h : index < formats.length,
            libcamera_pixel_formats_get formats index
              = Option.some (formats.get ⟨index, h⟩)) := by
  refine ⟨fun config index => ⟨?_, ?_⟩, fun list index => ⟨?_, ?_⟩,
    fun formats index => ⟨?_, ?_⟩⟩
  · intro hle
    rw [libcamera_camera_configuration_at, dif_neg (Nat.not_lt.mpr hle)]
  · intro h
    rw [libcamera_camera_configuration_at, dif_pos h]
  · intro hle
    rw [libcamera_camera_list_get, dif_pos hle]
  · intro h
    rw [libcamera_camera_list_get, dif_neg (Nat.not_le.mpr h)]
  · intro hle
    rw [libcamera_pixel_formats_get, dif_pos hle]
  · intro h
    rw [libcamera_pixel_formats_get, dif_neg (Nat.not_le.mpr h)]

/-- Witness for C9: out-of-range indices yield null and an in-range index
yields the stored element, on concrete containers. -/
theorem c9_indexed_access_total_witness :
    libcamera_camera_configuration_at [] 0 = Option.none
    ∧ libcamera_camera_list_get [{ id := "cam0" }] 0
        = Option.some { id := "cam0" }
    ∧ libcamera_pixel_formats_get [{ fourcc := 875713089, modifier := 0 }] 3
        = Option.none :=
  ⟨(c9_indexed_access_total.1 [] 0).1 (by decide),
   (c9_indexed_access_total.2.1 [{ id := "cam0" }] 0).2 (by decide),
   (c9_indexed_access_total.2.2 [{ fourcc := 875713089, modifier := 0 }] 3).1
     (by decide)⟩

/-- Claim C10: advancing an iteration cursor that is already at the end of its
container is a no-op, for both the control-list iterator and the request
buffer-map iterator; and `next` never moves a cursor past the end of the
underlying map. -/
theorem c10_iter_next_at_end :
    (∀ iter : ControlListIter, libcamera_control_list_iter_end iter = true →
        libcamera_control_list_iter_next iter = iter
        ∧ libcamera_control_list_iter_end
            (libcamera_control_list_iter_next iter) = true)
    ∧ (∀ iter : RequestBufferMapIter,
        libcamera_request_buffer_map_iter_end iter = true →
        libcamera_request_buffer_map_iter_next iter = iter
        ∧ libcamera_request_buffer_map_iter_end
            (libcamera_request_buffer_map_iter_next iter) = true)
    ∧ (∀ iter : ControlListIter, iter.pos ≤ iter.entries.length →
        (libcamera_control_list_iter_next iter).pos ≤ iter.entries.length)
    ∧ (∀ iter : RequestBufferMapIter, iter.pos ≤ iter.entries.length →
        (libcamera_request_buffer_map_iter_next iter).pos
          ≤ iter.entries.length) := by
  refine ⟨fun iter hend => ?_, fun iter hend => ?_, fun iter hle => ?_,
    fun iter hle => ?_⟩
  · rw [libcamera_control_list_iter_end, beq_iff_eq] at hend
    have hnext : libcamera_control_list_iter_next iter = iter := by
      rw [libcamera_control_list_iter_next, if_neg (by simp [hend])]
    refine ⟨hnext, ?_⟩
    rw [hnext, libcamera_control_list_iter_end, beq_iff_eq]
    exact hend
  · rw [libcamera_request_buffer_map_iter_end, beq_iff_eq] at hend
    have hnext : libcamera_request_buffer_map_iter_next iter = iter := by
      rw [libcamera_request_buffer_map_iter_next, if_neg (by simp [hend])]
    refine ⟨hnext, ?_⟩
    rw [hnext, libcamera_request_buffer_map_iter_end, beq_iff_eq]
    exact hend
  · rw [libcamera_control_list_iter_next]
    split
    · next hne =>
        have hne2 : iter.pos ≠ iter.entries.length := by simpa using hne
        show iter.pos + 1 ≤ iter.entries.length
        omega
    · exact hle
  · rw [libcamera_request_buffer_map_iter_next]
    split
    · next hne =>
        have hne2 : iter.pos ≠ iter.entries.length := by simpa using hne
        show iter.pos + 1 ≤ iter.entries.length
        omega
    · exact hle

/-- Witness for C10: the end iterator of an empty map is a fixed point of
`next` for both iterator kinds. -/
theorem c10_iter_next_at_end_witness :
    libcamera_control_list_iter_next { entries := [], pos := 0 }
      = { entries := [], pos := 0 }
    ∧ libcamera_request_buffer_map_iter_next { entries := [(1, 2)], pos := 1 }
      = { entries := [(1, 2)], pos := 1 } :=
  ⟨(c10_iter_next_at_end.1 { entries := [], pos := 0 } (by decide)).1,
   (c10_iter_next_at_end.2.1 { entries := [(1, 2)], pos := 1 } (by decide)).1⟩

/-- Claim C5: `configure` called with a configuration whose `validate()`
verdict is `Invalid` always fails with `InvalidConfiguration`, and the failing
call leaves the camera — in particular its previously applied configuration —
unchanged. -/
theorem c5_configure_invalid (cam : CameraModel) (config : CameraConfiguration)
    (h : libcamera_camera_configuration_validate config
          = ConfigStatus.invalid) :
    (libcamera_camera_configure cam config).error
        = Option.some CError.invalidConfiguration
    ∧ (libcamera_camera_configure cam config).camera = cam := by
  have hs : config.status = ConfigStatus.invalid := h
  rw [libcamera_camera_configure, if_pos (Or.inr hs)]
  exact ⟨rfl, rfl⟩

/-- Witness for C5: a concrete acquired camera and a concrete invalid
configuration. -/
theorem c5_configure_invalid_witness :
    (libcamera_camera_configure
        { state := CamState.acquired, applied := Option.none,
          supports := fun _ => true,
          defaultConfig := fun _ =>
            { streams := [], validated := true, status := ConfigStatus.valid } }
        { streams := [], validated := true,
          status := ConfigStatus.invalid }).error
      = Option.some CError.invalidConfiguration :=
  (c5_configure_invalid
    { state := CamState.acquired, applied := Option.none,
      supports := fun _ => true,
      defaultConfig := fun _ =>
        { streams := [], validated := true, status := ConfigStatus.valid } }
    { streams := [], validated := true, status := ConfigStatus.invalid }
    rfl).1

/-- Claim C8: `generateConfiguration(camera, roles)` returns null exactly for
role combinations the pipeline does not support; a non-null result is only
ever produced for a supported combination, and is the pipeline's default
configuration for it. -/
theorem c8_generate_configuration (cam : CameraModel)
    (roles : List StreamRole) :
    (cam.supports roles = false →
        libcamera_camera_generate_configuration cam roles = Option.none)
    ∧ (∀ config,
        libcamera_camera_generate_configuration cam roles
            = Option.some config →
        cam.supports roles = true ∧ config = cam.defaultConfig roles) := by
  constructor
  · intro hs
    rw [libcamera_camera_generate_configuration, if_neg (by simp [hs])]
  · intro config hcfg
    rw [libcamera_camera_generate_configuration] at hcfg
    by_cases hs : cam.supports roles = true
    · rw [if_pos hs] at hcfg
      exact ⟨hs, (Option.some.inj hcfg).symm⟩
    · rw [if_neg hs] at hcfg
      exact absurd hcfg (by simp)

/-- Witness for C8: a camera supporting no role combination yields null. -/
theorem c8_generate_configuration_witness :
    libcamera_camera_generate_configuration
        { state := CamState.acquired, applied := Option.none,
          supports := fun _ => false,
          defaultConfig := fun _ =>
            { streams := [], validated := false,
              status := ConfigStatus.valid } }
        [StreamRole.stillCapture]
      = Option.none :=
  (c8_generate_configuration
    { state := CamState.acquired, applied := Option.none,
      supports := fun _ => false,
      defaultConfig := fun _ =>
        { streams := [], validated := false, status := ConfigStatus.valid } }
    [StreamRole.stillCapture]).1 rfl

/-- The request identifiers of the cancellation callbacks are exactly the
outstanding requests, in order. -/
theorem cancelEvents_map_reqId (s : Nat) (rs : List Nat) :
    (cancelEvents s rs).map CallbackEvent.reqId = rs := by
  induction rs generalizing s with
  | nil => rfl
  | cons r rs ih => simp [cancelEvents, ih]

/-- Every cancellation callback carries status `Cancelled` and a sequence
number in the assigned range. -/
theorem cancelEvents_mem {s : Nat} {rs : List Nat} {e : CallbackEvent}
    (h : e ∈ cancelEvents s rs) :
    s ≤ e.seq ∧ e.seq < s + rs.length
      ∧ e.status = RequestStatus.cancelled := by
  induction rs generalizing s with
  | nil => simp [cancelEvents] at h
  | cons r rs ih =>
      rw [cancelEvents, List.mem_cons] at h
      rcases h with h | h
      · subst h
        exact ⟨Nat.le_refl s, by simp, rfl⟩
      · obtain ⟨h1, h2, h3⟩ := ih h
        refine ⟨by omega, ?_, h3⟩
        simp only [List.length_cons]
        omega

/-- Every outstanding request receives a cancellation callback. -/
theorem cancelEvents_covers {s : Nat} {rs : List Nat} {r : Nat}
    (h : r ∈ rs) :
    ∃ e ∈ cancelEvents s rs,
      e.reqId = r ∧ e.status = RequestStatus.cancelled := by
  induction rs generalizing s with
  | nil => simp at h
  | cons a rs ih =>
      rw [List.mem_cons] at h
      rcases h with rfl | h
      · exact ⟨{ reqId := r, seq := s, status := RequestStatus.cancelled },
          by simp [cancelEvents], rfl, rfl⟩
      · obtain ⟨e, he, h1, h2⟩ := ih (s := s + 1) h
        exact ⟨e, by simp [cancelEvents, he], h1, h2⟩

/-- The cancellation callbacks are emitted in strictly increasing sequence
order. -/
theorem cancelEvents_pairwise (s : Nat) (rs : List Nat) :
    List.Pairwise (fun a b => a.seq < b.seq) (cancelEvents s rs) := by
  induction rs generalizing s with
  | nil => exact List.Pairwise.nil
  | cons r rs ih =>
      rw [cancelEvents]
      refine List.Pairwise.cons ?_ (ih (s + 1))
      intro e he
      have hm := cancelEvents_mem he
      simp only []
      omega

/-- The invariant of a capture run relative to the requests queued so far: the
callback log together with the still-in-flight requests accounts for exactly
the queued requests; every logged callback has a sequence number below the
next one to be assigned and a non-`Pending` status; and the log is in strictly
increasing sequence order. -/
def PipeInv (st : PipelineState) (qs : List Nat) : Prop :=
  List.Perm (st.log.map CallbackEvent.reqId ++ st.inFlight) qs
  ∧ (∀ e ∈ st.log, e.seq < st.nextSeq)
  ∧ (∀ e ∈ st.log, e.status ≠ RequestStatus.pending)
  ∧ List.Pairwise (fun a b => a.seq < b.seq) st.log

/-- Each step of a capture run preserves the invariant. -/
theorem pipeInv_step (st : PipelineState) (qs : List Nat) (op : PipeOp)
    (h : PipeInv st qs) :
    PipeInv (pipelineStep st op) (qs ++ queuedIds [op]) := by
  obtain ⟨inF, ns, lg⟩ := st
  obtain ⟨hperm, hseq, hstat, hpair⟩ := h
  cases op with
  | queue r =>
      refine ⟨?_, hseq, hstat, hpair⟩
      simp only [pipelineStep, queuedIds]
      have heq : lg.map CallbackEvent.reqId ++ (inF ++ [r])
          = (lg.map CallbackEvent.reqId ++ inF) ++ [r] :=
        (List.append_assoc _ _ _).symm
      rw [heq]
      exact hperm.append_right [r]
  | completeOne =>
      simp only [pipelineStep, queuedIds, List.append_nil]
      cases inF with
      | nil => exact ⟨hperm, hseq, hstat, hpair⟩
      | cons r rest =>
          refine ⟨?_, ?_, ?_, ?_⟩
          · simp only [pipelineCompleteOne, List.map_append, List.map_cons,
              List.map_nil]
            have heq : (lg.map CallbackEvent.reqId ++ [r]) ++ rest
                = lg.map CallbackEvent.reqId ++ (r :: rest) := by
              rw [List.append_assoc]
              rfl
            rw [heq]
            exact hperm
          · intro e he
            simp only [pipelineCompleteOne] at he ⊢
            rw [List.mem_append] at he
            rcases he with he | he
            · exact Nat.lt_succ_of_lt (hseq e he)
            · simp only [List.mem_singleton] at he
              subst he
              exact Nat.lt_succ_self _
          · intro e he
            simp only [pipelineCompleteOne] at he
            rw [List.mem_append] at he
            rcases he with he | he
            · exact hstat e he
            · simp only [List.mem_singleton] at he
              subst he
              simp
          · simp only [pipelineCompleteOne]
            rw [List.pairwise_append]
            refine ⟨hpair, by simp, ?_⟩
            intro a ha b hb
            simp only [List.mem_singleton] at hb
            subst hb
            exact hseq a ha
  | stop =>
      simp only [pipelineStep, queuedIds, List.append_nil, pipelineStop]
      refine ⟨?_, ?_, ?_, ?_⟩
      · simp only [List.map_append, cancelEvents_map_reqId, List.append_nil]
        exact hperm
      · intro e he
        rw [List.mem_append] at he
        rcases he with he | he
        · have := hseq e he
          simp only [] at this ⊢
          omega
        · have := cancelEvents_mem he
          simp only [] at this ⊢
          omega
      · intro e he
        rw [List.mem_append] at he
        rcases he with he | he
        · exact hstat e he
        · rw [(cancelEvents_mem he).2.2]
          simp
      · rw [List.pairwise_append]
        refine ⟨hpair, cancelEvents_pairwise _ _, ?_⟩
        intro a ha b hb
        have h1 : a.seq < ns := hseq a ha
        have h2 : ns ≤ b.seq := (cancelEvents_mem hb).1
        omega

/-- The invariant holds after any capture run. -/
theorem pipeInv_run (ops : List PipeOp) (st : PipelineState) (qs : List Nat)
    (h : PipeInv st qs) :
    PipeInv (ops.foldl pipelineStep st) (qs ++ queuedIds ops) := by
  induction ops generalizing st qs with
  | nil => simpa [queuedIds] using h
  | cons op ops ih =>
      have hstep := pipeInv_step st qs op h
      have hrec := ih (pipelineStep st op) (qs ++ queuedIds [op]) hstep
      rw [List.foldl_cons]
      cases op with
      | queue r => simpa [queuedIds, List.append_assoc] using hrec
      | completeOne => simpa [queuedIds] using hrec
      | stop => simpa [queuedIds] using hrec

/-- The invariant for a run started from the fresh state. -/
theorem pipeInv_pipelineRun (ops : List PipeOp) :
    PipeInv (pipelineRun ops) (queuedIds ops) := by
  have h0 : PipeInv { inFlight := [], nextSeq := 0, log := [] } [] :=
    ⟨by simp, by simp, by simp, List.Pairwise.nil⟩
  simpa using pipeInv_run ops { inFlight := [], nextSeq := 0, log := [] } [] h0

/-- `queuedIds` distributes over run concatenation. -/
theorem queuedIds_append (l1 l2 : List PipeOp) :
    queuedIds (l1 ++ l2) = queuedIds l1 ++ queuedIds l2 := by
  induction l1 with
  | nil => rfl
  | cons op l1 ih => cases op <;> simp [queuedIds, ih]

/-- Claim C2: in any capture run of distinct queued requests that ends with
`stop()`, no request is left in flight; the completion callback fires exactly
once per queued request — the logged callbacks are a permutation of the queued
requests and each request is counted exactly once — always with a terminal
status (`Complete` or `Cancelled`, never `Pending`); the callbacks are
delivered in strictly increasing sequence order; and every request still
outstanding when `stop()` is called receives a `Cancelled` callback rather
than being dropped. -/
theorem c2_stop_completion (ops : List PipeOp)
    (hnd : (queuedIds ops).Nodup) :
    (pipelineRun (ops ++ [PipeOp.stop])).inFlight = []
    ∧ List.Perm
        ((pipelineRun (ops ++ [PipeOp.stop])).log.map CallbackEvent.reqId)
        (queuedIds ops)
    ∧ (∀ r ∈ queuedIds ops,
        ((pipelineRun (ops ++ [PipeOp.stop])).log.map
            CallbackEvent.reqId).count r = 1)
    ∧ (∀ e ∈ (pipelineRun (ops ++ [PipeOp.stop])).log,
        e.status = RequestStatus.complete
        ∨ e.status = RequestStatus.cancelled)
    ∧ List.Pairwise (fun a b => a.seq < b.seq)
        (pipelineRun (ops ++ [PipeOp.stop])).log
    ∧ (∀ r ∈ (pipelineRun ops).inFlight,
        ∃ e ∈ (pipelineRun (ops ++ [PipeOp.stop])).log,
          e.reqId = r ∧ e.status = RequestStatus.cancelled) := by
  have hrun : pipelineRun (ops ++ [PipeOp.stop])
      = pipelineStop (pipelineRun ops) := by
    rw [pipelineRun, List.foldl_append]
    rfl
  have hq : queuedIds (ops ++ [PipeOp.stop]) = queuedIds ops := by
    simp [queuedIds_append, queuedIds]
  have hinv := pipeInv_pipelineRun (ops ++ [PipeOp.stop])
  rw [hq] at hinv
  obtain ⟨hperm, hseq, hstat, hpair⟩ := hinv
  have hif : (pipelineRun (ops ++ [PipeOp.stop])).inFlight = [] := by
    rw [hrun]
    rfl
  have hperm2 : List.Perm
      ((pipelineRun (ops ++ [PipeOp.stop])).log.map CallbackEvent.reqId)
      (queuedIds ops) := by
    rw [hif, List.append_nil] at hperm
    exact hperm
  refine ⟨hif, hperm2, ?_, ?_, hpair, ?_⟩
  · intro r hr
    exact (hperm2.count_eq r).trans (List.count_eq_one_of_mem hnd hr)
  · intro e he
    cases hst : e.status with
    | pending => exact absurd hst (hstat e he)
    | complete => exact Or.inl rfl
    | cancelled => exact Or.inr rfl
  · intro r hr
    obtain ⟨e, he, h1, h2⟩ :=
      cancelEvents_covers (s := (pipelineRun ops).nextSeq) hr
    refine ⟨e, ?_, h1, h2⟩
    rw [hrun]
    exact List.mem_append_right _ he

/-- Witness for C2: a run queueing requests 1 and 2, completing one frame and
then stopping, leaves nothing in flight. -/
theorem c2_stop_completion_witness :
    (pipelineRun ([PipeOp.queue 1, PipeOp.queue 2, PipeOp.completeOne]
        ++ [PipeOp.stop])).inFlight = [] :=
  (c2_stop_completion [PipeOp.queue 1, PipeOp.queue 2, PipeOp.completeOne]
    (by decide)).1

end LibcameraRs
